import Mathlib

/-!
Verification of the world-state update protocol of the `llama_hack`
interactive-fiction engine (`src/chat_app.py`, `src/dynamic_updater.py`).

The Python code manipulates JSON-decoded values, so we embed a JSON value
type (`Json`) and model Python `None` as `Json.null`: Python's `json.loads`
decodes JSON `null` to `None`, and `dict.get` of a missing key also yields
`None`, so the identification is exact.  Numbers are modelled as integers
(the source never computes with decoded numbers and no claim involves
floats).  Python `==` on decoded values is structural equality, which is
what the decidable equality below provides.

External collaborators are parameters of the embedding:
  * `json.loads` is an abstract `parse : String → Option Json` (`none`
    models the `json.JSONDecodeError` it may raise);
  * the Llama completion call is an abstract
    `modelCall : List Message → Except Unit String` (`Except.error` models
    the exception it may raise); prompt-string rendering around the
    conversation window is glue and is folded into this parameter.

Timestamps attached to chat messages are omitted from the `Message` model:
no behaviour under scrutiny reads them.  The timestamp strings written by
`dynamic_updater.py` are kept as an explicit `now : String` argument.
-/

namespace LlamaHack

/-!
JSON values as decoded by `json.loads`.  `Json.null` doubles as Python
`None`.  Arrays and objects recurse through the companion types
`JsonList` / `JsonFields` (a mutual presentation of nested lists, chosen so
that all functions below are structurally recursive and kernel-reducible).
-/

mutual

inductive Json where
  | null : Json
  | bool (b : Bool) : Json
  | num (n : Int) : Json
  | str (s : String) : Json
  | arr (xs : JsonList) : Json
  | obj (fs : JsonFields) : Json

inductive JsonList where
  | nil : JsonList
  | cons (x : Json) (xs : JsonList) : JsonList

inductive JsonFields where
  | nil : JsonFields
  | cons (k : String) (v : Json) (fs : JsonFields) : JsonFields

end

mutual

def Json.decEq : (a b : Json) → Decidable (a = b)
  | .null, .null => isTrue rfl
  | .bool a, .bool b =>
    if h : a = b then isTrue (by rw [h]) else isFalse (by intro hc; cases hc; exact h rfl)
  | .num a, .num b =>
    if h : a = b then isTrue (by rw [h]) else isFalse (by intro hc; cases hc; exact h rfl)
  | .str a, .str b =>
    if h : a = b then isTrue (by rw [h]) else isFalse (by intro hc; cases hc; exact h rfl)
  | .arr xs, .arr ys =>
    match JsonList.decEq xs ys with
    | isTrue h => isTrue (by rw [h])
    | isFalse h => isFalse (by intro hc; cases hc; exact h rfl)
  | .obj fs, .obj gs =>
    match JsonFields.decEq fs gs with
    | isTrue h => isTrue (by rw [h])
    | isFalse h => isFalse (by intro hc; cases hc; exact h rfl)
  | .null, .bool _ => isFalse (by intro h; cases h)
  | .null, .num _ => isFalse (by intro h; cases h)
  | .null, .str _ => isFalse (by intro h; cases h)
  | .null, .arr _ => isFalse (by intro h; cases h)
  | .null, .obj _ => isFalse (by intro h; cases h)
  | .bool _, .null => isFalse (by intro h; cases h)
  | .bool _, .num _ => isFalse (by intro h; cases h)
  | .bool _, .str _ => isFalse (by intro h; cases h)
  | .bool _, .arr _ => isFalse (by intro h; cases h)
  | .bool _, .obj _ => isFalse (by intro h; cases h)
  | .num _, .null => isFalse (by intro h; cases h)
  | .num _, .bool _ => isFalse (by intro h; cases h)
  | .num _, .str _ => isFalse (by intro h; cases h)
  | .num _, .arr _ => isFalse (by intro h; cases h)
  | .num _, .obj _ => isFalse (by intro h; cases h)
  | .str _, .null => isFalse (by intro h; cases h)
  | .str _, .bool _ => isFalse (by intro h; cases h)
  | .str _, .num _ => isFalse (by intro h; cases h)
  | .str _, .arr _ => isFalse (by intro h; cases h)
  | .str _, .obj _ => isFalse (by intro h; cases h)
  | .arr _, .null => isFalse (by intro h; cases h)
  | .arr _, .bool _ => isFalse (by intro h; cases h)
  | .arr _, .num _ => isFalse (by intro h; cases h)
  | .arr _, .str _ => isFalse (by intro h; cases h)
  | .arr _, .obj _ => isFalse (by intro h; cases h)
  | .obj _, .null => isFalse (by intro h; cases h)
  | .obj _, .bool _ => isFalse (by intro h; cases h)
  | .obj _, .num _ => isFalse (by intro h; cases h)
  | .obj _, .str _ => isFalse (by intro h; cases h)
  | .obj _, .arr _ => isFalse (by intro h; cases h)

def JsonList.decEq : (xs ys : JsonList) → Decidable (xs = ys)
  | .nil, .nil => isTrue rfl
  | .cons x xs, .cons y ys =>
    match Json.decEq x y, JsonList.decEq xs ys with
    | isTrue h1, isTrue h2 => isTrue (by rw [h1, h2])
    | isFalse h1, _ => isFalse (by intro hc; cases hc; exact h1 rfl)
    | _, isFalse h2 => isFalse (by intro hc; cases hc; exact h2 rfl)
  | .nil, .cons _ _ => isFalse (by intro h; cases h)
  | .cons _ _, .nil => isFalse (by intro h; cases h)

def JsonFields.decEq : (fs gs : JsonFields) → Decidable (fs = gs)
  | .nil, .nil => isTrue rfl
  | .cons k v fs, .cons l w gs =>
    if h1 : k = l then
      match Json.decEq v w, JsonFields.decEq fs gs with
      | isTrue h2, isTrue h3 => isTrue (by rw [h1, h2, h3])
      | isFalse h2, _ => isFalse (by intro hc; cases hc; exact h2 rfl)
      | _, isFalse h3 => isFalse (by intro hc; cases hc; exact h3 rfl)
    else isFalse (by intro hc; cases hc; exact h1 rfl)
  | .nil, .cons _ _ _ => isFalse (by intro h; cases h)
  | .cons _ _ _, .nil => isFalse (by intro h; cases h)

end

instance : DecidableEq Json := Json.decEq

instance : DecidableEq JsonList := JsonList.decEq

instance : DecidableEq JsonFields := JsonFields.decEq

/-- Python truthiness of a decoded JSON value (`if world_updates:`). -/
def Json.truthy : Json → Bool
  | .null => false
  | .bool b => b
  | .num n => n != 0
  | .str s => s ≠ ""
  | .arr .nil => false
  | .arr (.cons _ _) => true
  | .obj .nil => false
  | .obj (.cons _ _ _) => true

/-- First binding of `k` among decoded object fields (`json.loads` yields
unique keys, so first-binding lookup coincides with Python dict lookup). -/
def JsonFields.lookup : JsonFields → String → Option Json
  | .nil, _ => none
  | .cons k v fs, key => if k = key then some v else fs.lookup key

/-- `d.get(key)` on a decoded JSON object: `null` (Python `None`) when the
key is absent. -/
def objGet (fs : JsonFields) (k : String) : Json :=
  (fs.lookup k).getD Json.null

/-!
## The Dynamic World Document (`knowledge_base/dynamic_world_knowledge.json`)

A character record is a JSON object; the fields the mutators touch are made
explicit, everything else (`personality_traits`, `talking_style`, …) is
carried opaquely in `rest` and is provably untouched.  `Option` on `items`
and `skills_or_powers` distinguishes an absent key (`"items" not in char`)
from a present one; the setup flow (`save_character`) only ever writes
lists into these keys, so a present key always holds a list.  `name` keeps
the raw `char.get("name")` value (`Json.null` when the key is absent).
-/

structure Character where
  name : Json
  items : Option (List Json)
  skills_or_powers : Option (List Json)
  current_location : Option Json
  emotional_state_trends : Option String
  character_arc : Option String
  rest : List (String × Json)
deriving DecidableEq

/-- The document root: `user_specific_knowledge_graph.characters` plus the
rest of the document (`user` block, storyline lists, …), which the five
`chat_app.py` mutation operations never touch. -/
structure DynamicWorld where
  characters : List Character
  rest : Json
deriving DecidableEq

/-- In-place mutation of the first list entry satisfying `p`
(the `for char in …: if …: mutate; break` loops of `chat_app.py`). -/
def updateFirst (p : α → Bool) (f : α → α) : List α → List α
  | [] => []
  | c :: cs => if p c then f c :: cs else c :: updateFirst p f cs

/-- `item_acquired` body: ensure `items` exists, append if absent
(`chat_app.py` lines 176–182). -/
def applyItemAcquired (item : Json) (c : Character) : Character :=
  let l := c.items.getD []
  { c with items := some (if l.contains item then l else l ++ [item]) }

/-- `item_lost` body: remove the first occurrence if the key exists and the
item is present (`chat_app.py` lines 189–193). -/
def applyItemLost (item : Json) (c : Character) : Character :=
  match c.items with
  | some l => if l.contains item then { c with items := some (l.erase item) } else c
  | none => c

/-- `skill_acquired` body (`chat_app.py` lines 200–206). -/
def applySkillAcquired (skill : Json) (c : Character) : Character :=
  let l := c.skills_or_powers.getD []
  { c with skills_or_powers := some (if l.contains skill then l else l ++ [skill]) }

/-- `skill_lost` body (`chat_app.py` lines 213–217). -/
def applySkillLost (skill : Json) (c : Character) : Character :=
  match c.skills_or_powers with
  | some l =>
    if l.contains skill then { c with skills_or_powers := some (l.erase skill) } else c
  | none => c

/-- `location_change` body: unconditional overwrite (`chat_app.py`
lines 224–227). -/
def applyLocationChange (location : Json) (c : Character) : Character :=
  { c with current_location := some location }

/-- The `update_type` dispatch of `chat_app.py` lines 169–227, applied to
the character list.  Unknown types fall through to the unchanged list. -/
def applyDirective (fs : JsonFields) (chars : List Character) : List Character :=
  let ut := objGet fs "update_type"
  let nm := objGet fs "character"
  if ut = .str "item_acquired" then
    updateFirst (fun c => c.name == nm) (applyItemAcquired (objGet fs "item")) chars
  else if ut = .str "item_lost" then
    updateFirst (fun c => c.name == nm) (applyItemLost (objGet fs "item")) chars
  else if ut = .str "skill_acquired" then
    updateFirst (fun c => c.name == nm) (applySkillAcquired (objGet fs "skill")) chars
  else if ut = .str "skill_lost" then
    updateFirst (fun c => c.name == nm) (applySkillLost (objGet fs "skill")) chars
  else if ut = .str "location_change" then
    updateFirst (fun c => c.name == nm) (applyLocationChange (objGet fs "location")) chars
  else chars

/-- `chat_app.py` lines 168–230: the whole `if world_updates:` block.  The
returned flag records whether `save_dynamic_world` was called.  Calling
`.get` on a truthy non-object directive raises `AttributeError`, modelled
as `Except.error`; a falsy directive (or `None`) skips the block. -/
def applyUpdates : Option Json → DynamicWorld → Except Unit (DynamicWorld × Bool)
  | none, dw => .ok (dw, false)
  | some u, dw =>
    if u.truthy then
      match u with
      | .obj fs => .ok ({ dw with characters := applyDirective fs dw.characters }, true)
      | _ => .error ()
    else .ok (dw, false)

/-!
## The update extractor (`extract_world_updates`) and response cleaning

`re.search(r'\[WORLD_UPDATE\](.*?)\[/WORLD_UPDATE\]', text, re.DOTALL)`
matches at the leftmost begin-token that is followed by an end-token, with
the shortest (non-greedy) interior, i.e. up to the first end-token after
it.  `re.sub` with the same pattern removes every such non-overlapping
match, scanning left to right.  Both are modelled over `List Char`.
-/

/-- `startsWith pat s`: `pat` is a leading segment of `s`. -/
def startsWith : List Char → List Char → Bool
  | [], _ => true
  | _ :: _, [] => false
  | a :: pat, b :: s => a == b && startsWith pat s

/-- Split `s` around the first (leftmost) occurrence of `sep`:
`some (pre, post)` with `s = pre ++ sep ++ post`, `none` when `sep` does
not occur. -/
def splitFirst (sep : List Char) : List Char → Option (List Char × List Char)
  | [] => if sep.isEmpty then some ([], []) else none
  | c :: cs =>
    if startsWith sep (c :: cs) then some ([], (c :: cs).drop sep.length)
    else
      match splitFirst sep cs with
      | some (pre, post) => some (c :: pre, post)
      | none => none

def openTag : List Char := "[WORLD_UPDATE]".toList

def closeTag : List Char := "[/WORLD_UPDATE]".toList

/-- The leftmost regex match: text before the match, the interior
(group 1), and the text after the match. -/
def findUpdateBlock (s : List Char) : Option (List Char × List Char × List Char) :=
  match splitFirst openTag s with
  | none => none
  | some (pre, rest) =>
    match splitFirst closeTag rest with
    | none => none
    | some (mid, post) => some (pre, mid, post)

/-- `re.sub(pattern, '', text)`: remove successive non-overlapping leftmost
matches, continuing after each match (never rescanning emitted text).
Structured with explicit fuel so that it stays structurally recursive;
each match consumes at least the two tags, so `s.length` fuel suffices. -/
def removeBlocksFuel : Nat → List Char → List Char
  | 0, s => s
  | fuel + 1, s =>
    match findUpdateBlock s with
    | none => s
    | some (pre, _, post) => pre ++ removeBlocksFuel fuel post

def removeBlocks (s : List Char) : List Char :=
  removeBlocksFuel s.length s

/-- Python `str.strip()` whitespace (ASCII; the inputs at hand contain no
exotic unicode whitespace). -/
def pySpace (c : Char) : Bool :=
  c == ' ' || c == '\t' || c == '\n' || c == '\r' || c == '\x0b' || c == '\x0c'

/-- Python `str.strip()`. -/
def pyStrip (s : List Char) : List Char :=
  ((s.dropWhile pySpace).reverse.dropWhile pySpace).reverse

/-- `extract_world_updates` (`chat_app.py` lines 86–100).  `parse` stands
for `json.loads`; `none` models its raising.  A decoded JSON `null` is the
Python value `None`, so returning it coincides with "no update". -/
def extract_world_updates (parse : String → Option Json) (text : String) : Option Json :=
  match findUpdateBlock text.toList with
  | none => none
  | some (_, mid, _) =>
    match parse (String.mk (pyStrip mid)) with
    | none => none
    | some j => if j = .null then none else some j

/-- `chat_app.py` line 154: `re.sub(..., '', response_text, DOTALL).strip()`. -/
def cleanResponse (text : String) : String :=
  String.mk (pyStrip (removeBlocks text.toList))

/-!
## The chat turn handler (`chat`, `chat_app.py` lines 102–242)
-/

/-- A chat-history entry as built by `chat` (timestamps omitted — nothing
under scrutiny reads them).  User entries carry no `character` key. -/
structure Message where
  sender : String
  character : Option String
  content : String
deriving DecidableEq

def userMessage (content : String) : Message :=
  { sender := "user", character := none, content := content }

def characterMessage (character content : String) : Message :=
  { sender := "character", character := some character, content := content }

/-- The filter of `chat_app.py` lines 128–131. -/
def msgVisible (character : String) (m : Message) : Bool :=
  m.sender == "user" || m.character == some character

/-- `character_chat_history`: the filtered history capped to its last 10
entries (Python `[-10:]`). -/
def characterChatHistory (character : String) (chat_history : List Message) : List Message :=
  let filtered := chat_history.filter (msgVisible character)
  filtered.drop (filtered.length - 10)

/-- The three terminal HTTP payload shapes of `chat`. -/
inductive ChatResponse where
  | ok (response : String) (world_updated : Bool)
  | errNoWorld
  | errException
deriving DecidableEq

/-- Observable outcome of one turn: the session history list, the two
on-disk documents, whether each save routine ran, and the payload. -/
structure ChatResult where
  sessionHistory : List Message
  dynFile : Option DynamicWorld
  histFile : Option (List Message)
  dynSaved : Bool
  histSaved : Bool
  response : ChatResponse
deriving DecidableEq

/-- The turn handler `chat` (`chat_app.py` lines 102–242).  The user
message is appended to the (aliased) session list before the world
document check and the model call; the reply is appended and the session
updated before the mutation block; `save_dynamic_world` runs inside
`if world_updates:`, `save_chat_history_to_file` after it; the outer
`except` converts any exception raised in between (the model call or the
`.get` on a non-dict directive) into an error payload. -/
def chat (message character : String)
    (parse : String → Option Json)
    (modelCall : List Message → Except Unit String)
    (sessionHistory : List Message)
    (dynFile : Option DynamicWorld)
    (histFile : Option (List Message)) : ChatResult :=
  let hist1 := sessionHistory ++ [userMessage message]
  match dynFile with
  | none =>
    { sessionHistory := hist1, dynFile := dynFile, histFile := histFile,
      dynSaved := false, histSaved := false, response := .errNoWorld }
  | some dw =>
    match modelCall (characterChatHistory character hist1) with
    | .error _ =>
      { sessionHistory := hist1, dynFile := dynFile, histFile := histFile,
        dynSaved := false, histSaved := false, response := .errException }
    | .ok response_text =>
      let world_updates := extract_world_updates parse response_text
      let clean_response := cleanResponse response_text
      let hist2 := hist1 ++ [characterMessage character clean_response]
      match applyUpdates world_updates dw with
      | .error _ =>
        { sessionHistory := hist2, dynFile := dynFile, histFile := histFile,
          dynSaved := false, histSaved := false, response := .errException }
      | .ok (dw', saved) =>
        { sessionHistory := hist2,
          dynFile := if saved then some dw' else dynFile,
          histFile := some hist2,
          dynSaved := saved, histSaved := true,
          response := .ok clean_response world_updates.isSome }

/-!
## The consequences-driven mutator (`dynamic_updater.py`)
-/

/-- The `consequences` record assembled by `analyze_user_response_with_api`
(`dynamic_updater.py` lines 173–181); every key is present there. -/
structure Consequences where
  emotional_impact : String
  arc_development : String
  items_gained : List Json
  items_lost : List Json
  relationship_changes : List Json
  story_direction : String
  narrative_consequences : String
deriving DecidableEq

/-- The `f"\n[{timestamp}] {user_action}: {text}"` trace lines. -/
def traceLine (now user_action text : String) : String :=
  "\n[" ++ now ++ "] " ++ user_action ++ ": " ++ text

/-- `DynamicKnowledgeUpdater.update_character_state` (`dynamic_updater.py`
lines 29–55), acting on the character list.  Note `items` is extended with
all of `items_gained` with no membership check, while `items_lost` entries
are removed one first-occurrence at a time. -/
def update_character_state (now character_name user_action : String)
    (consequences : Consequences) (characters : List Character) : List Character :=
  updateFirst (fun c => c.name == Json.str character_name)
    (fun c =>
      let est := (c.emotional_state_trends.getD "")
        ++ traceLine now user_action consequences.emotional_impact
      let c1 := { c with emotional_state_trends := some est }
      let arc := (c1.character_arc.getD "")
        ++ traceLine now user_action consequences.arc_development
      let c2 := { c1 with character_arc := some arc }
      let items0 := c2.items.getD []
      let items1 :=
        if consequences.items_gained.isEmpty then items0
        else items0 ++ consequences.items_gained
      let items2 :=
        if consequences.items_lost.isEmpty then items1
        else consequences.items_lost.foldl
          (fun acc it => if acc.contains it then acc.erase it else acc) items1
      { c2 with items := some items2 })
    characters

/-- An `alternative_endings` branch (`dynamic_updater.py` lines 102–108). -/
structure Branch where
  id : Nat
  description : String
  conditions : List String
  created_at : String
  storyline_changes : List Json
deriving DecidableEq

/-- `DynamicKnowledgeUpdater.add_alternative_ending_branch`
(`dynamic_updater.py` lines 97–110): the new id is the *current* length
plus one. -/
def add_alternative_ending_branch (now branch_description : String)
    (conditions : List String) (alternative_endings : Option (List Branch)) : List Branch :=
  let l := alternative_endings.getD []
  l ++ [{ id := l.length + 1, description := branch_description,
          conditions := conditions, created_at := now, storyline_changes := [] }]

/-- The five recognised `update_type` discriminators. -/
def knownUpdateTypes : List Json :=
  [.str "item_acquired", .str "item_lost", .str "skill_acquired",
   .str "skill_lost", .str "location_change"]

/-!
## Concrete fixtures used by witnesses and counterexamples
-/

/-- A well-formed character record. -/
def charX : Character :=
  { name := .str "X", items := some [.str "wand"], skills_or_powers := some [.str "magic"],
    current_location := some (.str "Hogwarts"), emotional_state_trends := none,
    character_arc := none, rest := [] }

/-- A one-character world document. -/
def dwX : DynamicWorld := { characters := [charX], rest := .null }

/-- A directive with an unrecognised `update_type`. -/
def unknownFields : JsonFields := .cons "update_type" (.str "teleport") .nil

/-- A `json.loads` stand-in decoding the word `teleport-directive`. -/
def parseUnknown : String → Option Json :=
  fun s => if s = "teleport-directive" then some (.obj unknownFields) else none

def noopText : String := "Done! [WORLD_UPDATE]teleport-directive[/WORLD_UPDATE]"

/-- A completion call producing `noopText`. -/
def mcNoop : List Message → Except Unit String := fun _ => .ok noopText

/-- A completion call that raises. -/
def mcRaise : List Message → Except Unit String := fun _ => .error ()

/-- A `json.loads` stand-in that always fails. -/
def parseFail : String → Option Json := fun _ => none

/-- A `json.loads` stand-in decoding any interior to a JSON string. -/
def parseEcho : String → Option Json := fun s => some (.str s)

/-- A `json.loads` stand-in decoding `emptyarr` to `[]` and `fullarr` to a
non-empty array. -/
def parseArr : String → Option Json :=
  fun s =>
    if s = "emptyarr" then some (.arr .nil)
    else if s = "fullarr" then some (.arr (.cons (.str "z") .nil))
    else none

def emptyArrText : String := "Sure. [WORLD_UPDATE]emptyarr[/WORLD_UPDATE]"

def fullArrText : String := "Sure. [WORLD_UPDATE]fullarr[/WORLD_UPDATE]"

def mcEmptyArr : List Message → Except Unit String := fun _ => .ok emptyArrText

def mcFullArr : List Message → Except Unit String := fun _ => .ok fullArrText

/-- `item_acquired` directive for character `X`, item `wand`. -/
def acquireWandX : Json :=
  .obj (.cons "update_type" (.str "item_acquired")
    (.cons "character" (.str "X") (.cons "item" (.str "wand") .nil)))

/-- `item_lost` directive for character `X`, item `wand`. -/
def loseWandX : Json :=
  .obj (.cons "update_type" (.str "item_lost")
    (.cons "character" (.str "X") (.cons "item" (.str "wand") .nil)))

/-- `charX` after its only `wand` has been removed. -/
def charXNoWand : Character := { charX with items := some [] }

def dwXNoWand : DynamicWorld := { characters := [charXNoWand], rest := .null }

/-- Consequences gaining a `wand` (already held by `charX`). -/
def consGainWand : Consequences :=
  { emotional_impact := "calm", arc_development := "growth",
    items_gained := [.str "wand"], items_lost := [],
    relationship_changes := [], story_direction := "", narrative_consequences := "" }

/-- The surviving branch after ids 1 and 2 were created and branch 1 was
deleted: an `alternative_endings` list that already contains id 2. -/
def branchTwo : Branch :=
  { id := 2, description := "d2", conditions := [], created_at := "t0",
    storyline_changes := [] }

/-!
## Helper lemmas
-/

theorem updateFirst_no_match {α} {p : α → Bool} {f : α → α} {l : List α}
    (h : ∀ x ∈ l, p x = false) : updateFirst p f l = l := by
  induction l with
  | nil => rfl
  | cons c cs ih =>
    have hc : ¬ p c = true := by
      rw [h c (List.mem_cons_self c cs)]; exact Bool.false_ne_true
    simp only [updateFirst, if_neg hc, List.cons.injEq, true_and]
    exact ih fun x hx => h x (List.mem_cons_of_mem _ hx)

theorem updateFirst_id {α} {p : α → Bool} {f : α → α} {l : List α}
    (h : ∀ x ∈ l, p x = true → f x = x) : updateFirst p f l = l := by
  induction l with
  | nil => rfl
  | cons c cs ih =>
    by_cases hc : p c = true
    · simp only [updateFirst, if_pos hc]
      rw [h c (List.mem_cons_self c cs) hc]
    · simp only [updateFirst, if_neg hc, List.cons.injEq, true_and]
      exact ih fun x hx hp => h x (List.mem_cons_of_mem _ hx) hp

theorem updateFirst_comp {α} {p : α → Bool} {f g : α → α} {l : List α}
    (h : ∀ x, p x = true → p (g x) = true) :
    updateFirst p f (updateFirst p g l) = updateFirst p (fun x => f (g x)) l := by
  induction l with
  | nil => rfl
  | cons c cs ih =>
    by_cases hc : p c = true
    · simp only [updateFirst, if_pos hc, if_pos (h c hc)]
    · simp only [updateFirst, if_neg hc, List.cons.injEq, true_and]
      exact ih

theorem mem_updateFirst {α} {p : α → Bool} {f : α → α} {l : List α} {y : α}
    (h : y ∈ updateFirst p f l) : y ∈ l ∨ ∃ x, x ∈ l ∧ p x = true ∧ y = f x := by
  induction l with
  | nil => simp [updateFirst] at h
  | cons c cs ih =>
    by_cases hc : p c = true
    · simp only [updateFirst, if_pos hc, List.mem_cons] at h
      rcases h with h | h
      · exact Or.inr ⟨c, List.mem_cons_self c cs, hc, h⟩
      · exact Or.inl (List.mem_cons_of_mem _ h)
    · simp only [updateFirst, if_neg hc, List.mem_cons] at h
      rcases h with h | h
      · exact Or.inl (by simp [h])
      · rcases ih h with h' | ⟨x, hx, hpx, hy⟩
        · exact Or.inl (List.mem_cons_of_mem _ h')
        · exact Or.inr ⟨x, List.mem_cons_of_mem _ hx, hpx, hy⟩

theorem updateFirst_pred {α} {p : α → Bool} {f : α → α} {l : List α} {Q : α → Prop}
    (hl : ∀ c ∈ l, Q c) (hf : ∀ c, Q c → Q (f c)) :
    ∀ c ∈ updateFirst p f l, Q c := by
  intro c hc
  rcases mem_updateFirst hc with h | ⟨x, hx, _, rfl⟩
  · exact hl _ h
  · exact hf _ (hl _ hx)

theorem startsWith_length {pat s : List Char} (h : startsWith pat s = true) :
    pat.length ≤ s.length := by
  induction pat generalizing s with
  | nil => simp
  | cons a pat ih =>
    cases s with
    | nil => simp [startsWith] at h
    | cons b s =>
      simp only [startsWith, Bool.and_eq_true] at h
      simpa [List.length_cons] using Nat.succ_le_succ (ih h.2)

theorem splitFirst_length {sep : List Char} : ∀ {s pre post : List Char},
    splitFirst sep s = some (pre, post) →
    pre.length + sep.length + post.length = s.length := by
  intro s
  induction s with
  | nil =>
    intro pre post h
    simp only [splitFirst] at h
    by_cases he : sep.isEmpty = true
    · rw [if_pos he] at h
      simp only [Option.some.injEq, Prod.mk.injEq] at h
      obtain ⟨h1, h2⟩ := h
      subst h1; subst h2
      simp [List.isEmpty_iff.mp he]
    · rw [if_neg he] at h
      simp at h
  | cons c cs ih =>
    intro pre post h
    simp only [splitFirst] at h
    by_cases hs : startsWith sep (c :: cs) = true
    · rw [if_pos hs] at h
      simp only [Option.some.injEq, Prod.mk.injEq] at h
      obtain ⟨h1, h2⟩ := h
      subst h1; subst h2
      have hle := startsWith_length hs
      simp only [List.length_nil, List.length_drop]
      omega
    · rw [if_neg hs] at h
      cases hsp : splitFirst sep cs with
      | none => rw [hsp] at h; simp at h
      | some pr =>
        obtain ⟨pre', post'⟩ := pr
        rw [hsp] at h
        dsimp only at h
        simp only [Option.some.injEq, Prod.mk.injEq] at h
        obtain ⟨h1, h2⟩ := h
        subst h1; subst h2
        have := ih hsp
        simp only [List.length_cons]
        omega

theorem findUpdateBlock_post_lt {s pre mid post : List Char}
    (h : findUpdateBlock s = some (pre, mid, post)) : post.length < s.length := by
  unfold findUpdateBlock at h
  cases h1 : splitFirst openTag s with
  | none => rw [h1] at h; simp at h
  | some pr =>
    obtain ⟨p1, rest⟩ := pr
    rw [h1] at h
    dsimp only at h
    cases h2 : splitFirst closeTag rest with
    | none => rw [h2] at h; simp at h
    | some qr =>
      obtain ⟨m, po⟩ := qr
      rw [h2] at h
      dsimp only at h
      simp only [Option.some.injEq, Prod.mk.injEq] at h
      obtain ⟨hp, hm, hpo⟩ := h
      subst hp; subst hm; subst hpo
      have l1 := splitFirst_length h1
      have l2 := splitFirst_length h2
      have ho : openTag.length = 14 := by decide
      have hc : closeTag.length = 15 := by decide
      omega

theorem removeBlocksFuel_congr : ∀ (f1 f2 : Nat) (s : List Char),
    s.length ≤ f1 → s.length ≤ f2 → removeBlocksFuel f1 s = removeBlocksFuel f2 s := by
  intro f1
  induction f1 with
  | zero =>
    intro f2 s h1 _
    have hs : s = [] := List.eq_nil_of_length_eq_zero (Nat.le_zero.mp h1)
    subst hs
    cases f2 <;> rfl
  | succ f1 ih =>
    intro f2 s h1 h2
    cases f2 with
    | zero =>
      have hs : s = [] := List.eq_nil_of_length_eq_zero (Nat.le_zero.mp h2)
      subst hs
      rfl
    | succ f2 =>
      simp only [removeBlocksFuel]
      cases hb : findUpdateBlock s with
      | none => rfl
      | some t =>
        obtain ⟨pre, mid, post⟩ := t
        have hlt := findUpdateBlock_post_lt hb
        dsimp only
        rw [ih f2 post (by omega) (by omega)]

theorem removeBlocks_step {s pre mid post : List Char}
    (h : findUpdateBlock s = some (pre, mid, post)) :
    removeBlocks s = pre ++ removeBlocks post := by
  unfold removeBlocks
  have hlt := findUpdateBlock_post_lt h
  cases hl : s.length with
  | zero =>
    have hs : s = [] := List.eq_nil_of_length_eq_zero hl
    subst hs
    rw [show findUpdateBlock ([] : List Char) = none from rfl] at h
    simp at h
  | succ n =>
    simp only [removeBlocksFuel]
    rw [h]
    dsimp only
    rw [removeBlocksFuel_congr n post.length post (by omega) (Nat.le_refl _)]

theorem removeBlocks_no_block {s : List Char} (h : findUpdateBlock s = none) :
    removeBlocks s = s := by
  unfold removeBlocks
  cases hl : s.length with
  | zero => rfl
  | succ n =>
    simp only [removeBlocksFuel]
    rw [h]

theorem findUpdateBlock_none_of_no_open {s : List Char}
    (h : splitFirst openTag s = none) : findUpdateBlock s = none := by
  unfold findUpdateBlock
  rw [h]

theorem applyDirective_unknown_type {fs : JsonFields} {chars : List Character}
    (h : objGet fs "update_type" ∉ knownUpdateTypes) :
    applyDirective fs chars = chars := by
  simp only [knownUpdateTypes, List.mem_cons, List.mem_singleton, not_or] at h
  obtain ⟨h1, h2, h3, h4, h5⟩ := h
  simp [applyDirective, h1, h2, h3, h4, h5]

theorem applyDirective_no_such_character {fs : JsonFields} {chars : List Character}
    (h : ∀ c ∈ chars, (c.name == objGet fs "character") = false) :
    applyDirective fs chars = chars := by
  simp only [applyDirective]
  split_ifs <;> first
    | rfl
    | exact updateFirst_no_match h

theorem applyUpdates_obj {fs : JsonFields} {dw : DynamicWorld}
    (ht : (Json.obj fs).truthy = true) :
    applyUpdates (some (.obj fs)) dw =
      .ok ({ dw with characters := applyDirective fs dw.characters }, true) := by
  simp [applyUpdates, ht]

theorem applyUpdates_error {u : Json} {dw : DynamicWorld}
    (ht : u.truthy = true) (hne : ∀ fs, u ≠ .obj fs) :
    applyUpdates (some u) dw = .error () := by
  cases u with
  | obj fs => exact absurd rfl (hne fs)
  | null => simp [Json.truthy] at ht
  | bool b => simp [applyUpdates, ht]
  | num n => simp [applyUpdates, ht]
  | str s => simp [applyUpdates, ht]
  | arr xs => simp [applyUpdates, ht]

theorem applyItemAcquired_of_contains {x : Json} {c : Character}
    (h : (c.items.getD []).contains x = true) : applyItemAcquired x c = c := by
  cases hc : c.items with
  | none => rw [hc] at h; simp at h
  | some l =>
    rw [hc] at h
    simp only [Option.getD_some] at h
    simp only [applyItemAcquired, hc, Option.getD_some, h, if_true]
    rw [← hc]

theorem applyItemLost_of_not_contains {x : Json} {c : Character}
    (h : (c.items.getD []).contains x = false) : applyItemLost x c = c := by
  cases hc : c.items with
  | none => simp [applyItemLost, hc]
  | some l =>
    rw [hc] at h
    simp only [Option.getD_some] at h
    have hx : ¬ l.contains x = true := by rw [h]; exact Bool.false_ne_true
    simp only [applyItemLost]
    rw [hc]
    dsimp only
    rw [if_neg hx]

theorem applySkillAcquired_of_contains {x : Json} {c : Character}
    (h : (c.skills_or_powers.getD []).contains x = true) : applySkillAcquired x c = c := by
  cases hc : c.skills_or_powers with
  | none => rw [hc] at h; simp at h
  | some l =>
    rw [hc] at h
    simp only [Option.getD_some] at h
    simp only [applySkillAcquired, hc, Option.getD_some, h, if_true]
    rw [← hc]

theorem applySkillLost_of_not_contains {x : Json} {c : Character}
    (h : (c.skills_or_powers.getD []).contains x = false) : applySkillLost x c = c := by
  cases hc : c.skills_or_powers with
  | none => simp [applySkillLost, hc]
  | some l =>
    rw [hc] at h
    simp only [Option.getD_some] at h
    have hx : ¬ l.contains x = true := by rw [h]; exact Bool.false_ne_true
    simp only [applySkillLost]
    rw [hc]
    dsimp only
    rw [if_neg hx]

theorem applyLocationChange_of_eq {x : Json} {c : Character}
    (h : c.current_location = some x) : applyLocationChange x c = c := by
  simp only [applyLocationChange]
  rw [← h]

theorem applyItemAcquired_pres {x : Json} {c : Character}
    (h : (c.items.getD []).Nodup ∧ (c.skills_or_powers.getD []).Nodup) :
    ((applyItemAcquired x c).items.getD []).Nodup
    ∧ ((applyItemAcquired x c).skills_or_powers.getD []).Nodup := by
  obtain ⟨h1, h2⟩ := h
  refine ⟨?_, h2⟩
  simp only [applyItemAcquired, Option.getD_some]
  by_cases hc : (c.items.getD []).contains x = true
  · rw [if_pos hc]
    exact h1
  · rw [if_neg hc]
    have hx : x ∉ c.items.getD [] := fun hm => hc (List.elem_iff.mpr hm)
    simp [List.nodup_append, h1, hx]

theorem applyItemLost_pres {x : Json} {c : Character}
    (h : (c.items.getD []).Nodup ∧ (c.skills_or_powers.getD []).Nodup) :
    ((applyItemLost x c).items.getD []).Nodup
    ∧ ((applyItemLost x c).skills_or_powers.getD []).Nodup := by
  obtain ⟨h1, h2⟩ := h
  cases hc : c.items with
  | none => simp only [applyItemLost, hc]; rw [hc] at h1; exact ⟨h1, h2⟩
  | some l =>
    rw [hc] at h1
    simp only [Option.getD_some] at h1
    simp only [applyItemLost, hc]
    by_cases hcl : l.contains x = true
    · rw [if_pos hcl]
      exact ⟨h1.erase x, h2⟩
    · rw [if_neg hcl]
      rw [hc]
      exact ⟨h1, h2⟩

theorem applySkillAcquired_pres {x : Json} {c : Character}
    (h : (c.items.getD []).Nodup ∧ (c.skills_or_powers.getD []).Nodup) :
    ((applySkillAcquired x c).items.getD []).Nodup
    ∧ ((applySkillAcquired x c).skills_or_powers.getD []).Nodup := by
  obtain ⟨h1, h2⟩ := h
  refine ⟨h1, ?_⟩
  simp only [applySkillAcquired, Option.getD_some]
  by_cases hc : (c.skills_or_powers.getD []).contains x = true
  · rw [if_pos hc]
    exact h2
  · rw [if_neg hc]
    have hx : x ∉ c.skills_or_powers.getD [] := fun hm => hc (List.elem_iff.mpr hm)
    simp [List.nodup_append, h2, hx]

theorem applySkillLost_pres {x : Json} {c : Character}
    (h : (c.items.getD []).Nodup ∧ (c.skills_or_powers.getD []).Nodup) :
    ((applySkillLost x c).items.getD []).Nodup
    ∧ ((applySkillLost x c).skills_or_powers.getD []).Nodup := by
  obtain ⟨h1, h2⟩ := h
  cases hc : c.skills_or_powers with
  | none => simp only [applySkillLost, hc]; rw [hc] at h2; exact ⟨h1, h2⟩
  | some l =>
    rw [hc] at h2
    simp only [Option.getD_some] at h2
    simp only [applySkillLost, hc]
    by_cases hcl : l.contains x = true
    · rw [if_pos hcl]
      exact ⟨h1, h2.erase x⟩
    · rw [if_neg hcl]
      rw [hc]
      exact ⟨h1, h2⟩

theorem applyLocationChange_pres {x : Json} {c : Character}
    (h : (c.items.getD []).Nodup ∧ (c.skills_or_powers.getD []).Nodup) :
    ((applyLocationChange x c).items.getD []).Nodup
    ∧ ((applyLocationChange x c).skills_or_powers.getD []).Nodup := h

/-!
## Claims
-/

/-- C7: each of the five mutation operations is idempotent against its own
already-applied effect: `item_acquired` / `skill_acquired` on an entry
already present leaves the character list unchanged, `item_lost` /
`skill_lost` on an absent entry is a no-op, and `location_change` to the
current location is a no-op. -/
theorem mutation_ops_idempotent (chars : List Character) (nm x : Json) :
    ((∀ c ∈ chars, c.name = nm → (c.items.getD []).contains x = true) →
      updateFirst (fun c => c.name == nm) (applyItemAcquired x) chars = chars)
    ∧ ((∀ c ∈ chars, c.name = nm → (c.items.getD []).contains x = false) →
      updateFirst (fun c => c.name == nm) (applyItemLost x) chars = chars)
    ∧ ((∀ c ∈ chars, c.name = nm → (c.skills_or_powers.getD []).contains x = true) →
      updateFirst (fun c => c.name == nm) (applySkillAcquired x) chars = chars)
    ∧ ((∀ c ∈ chars, c.name = nm → (c.skills_or_powers.getD []).contains x = false) →
      updateFirst (fun c => c.name == nm) (applySkillLost x) chars = chars)
    ∧ ((∀ c ∈ chars, c.name = nm → c.current_location = some x) →
      updateFirst (fun c => c.name == nm) (applyLocationChange x) chars = chars) :=
  ⟨fun h => updateFirst_id fun c hc hpc =>
      applyItemAcquired_of_contains (h c hc (eq_of_beq hpc)),
   fun h => updateFirst_id fun c hc hpc =>
      applyItemLost_of_not_contains (h c hc (eq_of_beq hpc)),
   fun h => updateFirst_id fun c hc hpc =>
      applySkillAcquired_of_contains (h c hc (eq_of_beq hpc)),
   fun h => updateFirst_id fun c hc hpc =>
      applySkillLost_of_not_contains (h c hc (eq_of_beq hpc)),
   fun h => updateFirst_id fun c hc hpc =>
      applyLocationChange_of_eq (h c hc (eq_of_beq hpc))⟩

/-- Witness for C7: concrete runs of all five operations against their
already-applied effect on `charX`. -/
theorem mutation_ops_idempotent_witness :
    updateFirst (fun c => c.name == Json.str "X")
        (applyItemAcquired (.str "wand")) [charX] = [charX]
    ∧ updateFirst (fun c => c.name == Json.str "X")
        (applyItemLost (.str "sword")) [charX] = [charX]
    ∧ updateFirst (fun c => c.name == Json.str "X")
        (applySkillAcquired (.str "magic")) [charX] = [charX]
    ∧ updateFirst (fun c => c.name == Json.str "X")
        (applySkillLost (.str "flight")) [charX] = [charX]
    ∧ updateFirst (fun c => c.name == Json.str "X")
        (applyLocationChange (.str "Hogwarts")) [charX] = [charX] :=
  ⟨(mutation_ops_idempotent [charX] (.str "X") (.str "wand")).1 (by decide),
   (mutation_ops_idempotent [charX] (.str "X") (.str "sword")).2.1 (by decide),
   (mutation_ops_idempotent [charX] (.str "X") (.str "magic")).2.2.1 (by decide),
   (mutation_ops_idempotent [charX] (.str "X") (.str "flight")).2.2.2.1 (by decide),
   (mutation_ops_idempotent [charX] (.str "X") (.str "Hogwarts")).2.2.2.2 (by decide)⟩

/-- C8: the prompt's conversation window holds only user messages plus
messages attributed to the active character, and is the most recent
at-most-10 entries of that filtered sequence. -/
theorem history_window_user_and_character_capped (character : String) (hist : List Message) :
    ((characterChatHistory character hist).all (msgVisible character) = true)
    ∧ (characterChatHistory character hist).length
        = min 10 (hist.filter (msgVisible character)).length
    ∧ characterChatHistory character hist <:+ hist.filter (msgVisible character) := by
  simp only [characterChatHistory]
  refine ⟨?_, ?_, ?_⟩
  · rw [List.all_eq_true]
    intro m hm
    exact (List.mem_filter.mp (List.drop_subset _ _ hm)).2
  · rw [List.length_drop]
    omega
  · exact List.drop_suffix _ _

/-- C9: when the delimited interior fails to decode, extraction yields "no
update" without raising, and the turn still answers with the cleaned
reply. -/
theorem extract_parse_failure_soft
    (parse : String → Option Json) (msg ch : String) (hist : List Message)
    (dw : DynamicWorld) (hf : Option (List Message))
    (mc : List Message → Except Unit String) (text : String) (pre mid post : List Char)
    (hb : findUpdateBlock text.toList = some (pre, mid, post))
    (hp : parse (String.mk (pyStrip mid)) = none)
    (hmc : mc (characterChatHistory ch (hist ++ [userMessage msg])) = .ok text) :
    extract_world_updates parse text = none
    ∧ (chat msg ch parse mc hist (some dw) hf).response
        = .ok (cleanResponse text) false := by
  have he : extract_world_updates parse text = none := by
    unfold extract_world_updates
    rw [hb]
    dsimp only
    rw [hp]
  refine ⟨he, ?_⟩
  simp only [chat]
  rw [hmc]
  dsimp only
  rw [he]
  simp [applyUpdates]

/-- Witness for C9: a response carrying `[WORLD_UPDATE]not json[/WORLD_UPDATE]`. -/
theorem extract_parse_failure_soft_witness :
    extract_world_updates parseFail "Hmm [WORLD_UPDATE]not json[/WORLD_UPDATE]!" = none
    ∧ (chat "hi" "X" parseFail
        (fun _ => .ok "Hmm [WORLD_UPDATE]not json[/WORLD_UPDATE]!")
        [] (some dwX) none).response
      = .ok (cleanResponse "Hmm [WORLD_UPDATE]not json[/WORLD_UPDATE]!") false :=
  extract_parse_failure_soft parseFail "hi" "X" [] dwX none
    (fun _ => .ok "Hmm [WORLD_UPDATE]not json[/WORLD_UPDATE]!")
    "Hmm [WORLD_UPDATE]not json[/WORLD_UPDATE]!"
    ("Hmm ".toList) ("not json".toList) ("!".toList)
    (by decide) (by decide) rfl

/-- C1 counterexample: a turn whose directive has the unknown
`update_type` `teleport` still calls `save_dynamic_world` — the claim
"no save is performed" is false (`save_dynamic_world` sits inside
`if world_updates:` unconditionally, `chat_app.py` line 230). -/
theorem noop_directive_triggers_save_counterexample :
    (chat "hi" "X" parseUnknown mcNoop [] (some dwX) none).dynSaved = true := by
  decide

/-- C1 amended: a no-op directive (unknown `update_type`, or a `character`
naming no record) leaves the Dynamic World Document value unchanged, but a
save is still performed — it rewrites the document with identical
content. -/
theorem noop_directive_saves_unchanged_document
    (msg ch : String) (parse : String → Option Json)
    (mc : List Message → Except Unit String) (hist : List Message)
    (dw : DynamicWorld) (hf : Option (List Message)) (text : String) (fs : JsonFields)
    (hmc : mc (characterChatHistory ch (hist ++ [userMessage msg])) = .ok text)
    (hx : extract_world_updates parse text = some (.obj fs))
    (ht : (Json.obj fs).truthy = true)
    (hno : objGet fs "update_type" ∉ knownUpdateTypes
      ∨ ∀ c ∈ dw.characters, (c.name == objGet fs "character") = false) :
    (chat msg ch parse mc hist (some dw) hf).dynFile = some dw
    ∧ (chat msg ch parse mc hist (some dw) hf).dynSaved = true := by
  have hd : applyDirective fs dw.characters = dw.characters := by
    rcases hno with h | h
    · exact applyDirective_unknown_type h
    · exact applyDirective_no_such_character h
  have ha : applyUpdates (some (.obj fs)) dw = .ok (dw, true) := by
    rw [applyUpdates_obj ht, hd]
  constructor <;>
    · simp only [chat]
      rw [hmc]
      dsimp only
      rw [hx, ha]
      try rfl

/-- Witness for C1: the unknown-type directive turn, via the amended
theorem. -/
theorem noop_directive_saves_unchanged_document_witness :
    (chat "hi" "X" parseUnknown mcNoop [] (some dwX) none).dynFile = some dwX
    ∧ (chat "hi" "X" parseUnknown mcNoop [] (some dwX) none).dynSaved = true :=
  noop_directive_saves_unchanged_document "hi" "X" parseUnknown mcNoop [] dwX none
    noopText unknownFields rfl (by decide) (by decide) (Or.inl (by decide))

/-- C4 counterexample: when the model call raises, the user message *has*
been appended to the session history (`chat_app.py` line 116 runs before
the `try`), so "no history entry (neither user message nor reply) is
appended" is false. -/
theorem model_failure_appends_user_message_counterexample :
    (chat "hi" "X" parseFail mcRaise [] (some dwX) none).sessionHistory
      = [userMessage "hi"]
    ∧ ([userMessage "hi"] : List Message) ≠ [] := by
  constructor
  · decide
  · decide

/-- C4 amended: when the model call raises, the turn answers with an error
payload, is not retried, persists no world-state mutation, appends no
reply, and does not rewrite the history file — but the user message was
already appended to the in-session history and stays there. -/
theorem model_failure_aborts_without_persistence
    (msg ch : String) (parse : String → Option Json)
    (mc : List Message → Except Unit String) (hist : List Message)
    (dw : DynamicWorld) (hf : Option (List Message))
    (hmc : mc (characterChatHistory ch (hist ++ [userMessage msg])) = .error ()) :
    chat msg ch parse mc hist (some dw) hf =
      { sessionHistory := hist ++ [userMessage msg], dynFile := some dw,
        histFile := hf, dynSaved := false, histSaved := false,
        response := .errException } := by
  simp only [chat]
  rw [hmc]

/-- Witness for C4: a concrete raising model call. -/
theorem model_failure_aborts_without_persistence_witness :
    chat "hi" "X" parseFail mcRaise [] (some dwX) none =
      { sessionHistory := [userMessage "hi"], dynFile := some dwX,
        histFile := none, dynSaved := false, histSaved := false,
        response := .errException } :=
  model_failure_aborts_without_persistence "hi" "X" parseFail mcRaise [] dwX none rfl

/-- C10 counterexample: a block decoding to the *empty* JSON array `[]` —
valid JSON, not an object — does not abort the turn: `[]` is falsy, so
`if world_updates:` skips the mapping lookups and the turn answers
normally (even reporting `world_updated: true`, since the directive is not
`None`). -/
theorem falsy_nonobject_directive_counterexample :
    (chat "hi" "X" parseArr mcEmptyArr [] (some dwX) none).response
      = .ok "Sure." true
    ∧ (chat "hi" "X" parseArr mcEmptyArr [] (some dwX) none).dynSaved = false := by
  constructor
  · decide
  · decide

/-- C10 amended: a directive that is valid JSON, *truthy* (e.g. a
non-empty array or non-empty string) and not an object makes the
`.get("update_type")` call raise; the exception is caught only at the turn
boundary, so the whole turn aborts with the error payload and nothing is
persisted (the reply had already been appended in-session). -/
theorem truthy_nonobject_directive_aborts_turn
    (msg ch : String) (parse : String → Option Json)
    (mc : List Message → Except Unit String) (hist : List Message)
    (dw : DynamicWorld) (hf : Option (List Message)) (text : String) (u : Json)
    (hmc : mc (characterChatHistory ch (hist ++ [userMessage msg])) = .ok text)
    (hx : extract_world_updates parse text = some u)
    (ht : u.truthy = true)
    (hne : ∀ fs, u ≠ .obj fs) :
    (chat msg ch parse mc hist (some dw) hf).response = .errException
    ∧ (chat msg ch parse mc hist (some dw) hf).dynFile = some dw
    ∧ (chat msg ch parse mc hist (some dw) hf).dynSaved = false
    ∧ (chat msg ch parse mc hist (some dw) hf).histSaved = false := by
  have ha : applyUpdates (some u) dw = .error () := applyUpdates_error ht hne
  refine ⟨?_, ?_, ?_, ?_⟩ <;>
    · simp only [chat]
      rw [hmc]
      dsimp only
      rw [hx, ha]

/-- Witness for C10: a block decoding to the non-empty array. -/
theorem truthy_nonobject_directive_aborts_turn_witness :
    (chat "hi" "X" parseArr mcFullArr [] (some dwX) none).response = .errException
    ∧ (chat "hi" "X" parseArr mcFullArr [] (some dwX) none).dynFile = some dwX
    ∧ (chat "hi" "X" parseArr mcFullArr [] (some dwX) none).dynSaved = false
    ∧ (chat "hi" "X" parseArr mcFullArr [] (some dwX) none).histSaved = false :=
  truthy_nonobject_directive_aborts_turn "hi" "X" parseArr mcFullArr [] dwX none
    fullArrText (.arr (.cons (.str "z") .nil)) rfl (by decide) (by decide)
    (fun fs h => by cases h)

/-- C2 counterexample: the consequences-driven mutator extends `items`
with `items_gained` *without* a membership check
(`dynamic_updater.py` line 49): gaining a `wand` already held duplicates
it. -/
theorem consequences_mutator_duplicates_items_counterexample :
    ((update_character_state "t0" "X" "act" consGainWand [charX]).head?.map
        Character.items) = some (some [Json.str "wand", Json.str "wand"])
    ∧ ¬ ([Json.str "wand", Json.str "wand"] : List Json).Nodup := by
  constructor
  · decide
  · decide

/-- C2 amended: the minimal single-directive mutator checks membership
before every append and so preserves duplicate-freedom of `items` and
`skills_or_powers`; the richer consequences-driven mutator does not. -/
theorem minimal_mutator_preserves_nodup
    (u : Option Json) (dw dw' : DynamicWorld) (saved : Bool)
    (h : applyUpdates u dw = .ok (dw', saved))
    (hinv : ∀ c ∈ dw.characters,
      (c.items.getD []).Nodup ∧ (c.skills_or_powers.getD []).Nodup) :
    ∀ c ∈ dw'.characters,
      (c.items.getD []).Nodup ∧ (c.skills_or_powers.getD []).Nodup := by
  cases u with
  | none =>
    simp only [applyUpdates, Except.ok.injEq, Prod.mk.injEq] at h
    rw [← h.1]
    exact hinv
  | some v =>
    by_cases ht : v.truthy = true
    · cases v with
      | obj fs =>
        rw [applyUpdates_obj ht] at h
        simp only [Except.ok.injEq, Prod.mk.injEq] at h
        rw [← h.1]
        intro c hc
        dsimp only at hc
        revert hc
        simp only [applyDirective]
        split_ifs <;> intro hc
        · exact updateFirst_pred hinv (fun c hq => applyItemAcquired_pres hq) c hc
        · exact updateFirst_pred hinv (fun c hq => applyItemLost_pres hq) c hc
        · exact updateFirst_pred hinv (fun c hq => applySkillAcquired_pres hq) c hc
        · exact updateFirst_pred hinv (fun c hq => applySkillLost_pres hq) c hc
        · exact updateFirst_pred hinv (fun c hq => applyLocationChange_pres hq) c hc
        · exact hinv c hc
      | null => simp [Json.truthy] at ht
      | bool b => simp [applyUpdates, ht] at h
      | num n => simp [applyUpdates, ht] at h
      | str s => simp [applyUpdates, ht] at h
      | arr xs => simp [applyUpdates, ht] at h
    · simp only [applyUpdates] at h
      rw [if_neg ht] at h
      simp only [Except.ok.injEq, Prod.mk.injEq] at h
      rw [← h.1]
      exact hinv

/-- Witness for C2: a directive applied to `dwX`, whose lists stay
duplicate-free. -/
theorem minimal_mutator_preserves_nodup_witness :
    (charX.items.getD []).Nodup ∧ (charX.skills_or_powers.getD []).Nodup :=
  minimal_mutator_preserves_nodup (some acquireWandX) dwX dwX true
    rfl (by decide) charX (by decide)

/-- C3 counterexample: branch ids are the *current* length plus one, so
after the id-1 branch of `[1, 2]` is deleted (leaving `branchTwo` with
id 2), three sequential additions produce ids `2, 3, 4` — the freshly
assigned id `2` collides with the surviving branch, and the sequence is
not `1, 2, 3`. -/
theorem branch_id_reuse_counterexample :
    ((add_alternative_ending_branch "t3" "b3" []
        (some (add_alternative_ending_branch "t2" "b2" []
          (some (add_alternative_ending_branch "t1" "b1" []
            (some [branchTwo])))))).map Branch.id) = [2, 2, 3, 4]
    ∧ ¬ ([2, 2, 3, 4] : List Nat).Nodup := by
  constructor
  · decide
  · decide

/-- C3 amended: each appended branch receives id `current count + 1`
(so ids repeat once earlier branches are removed), and three sequential
additions starting from an empty or absent `alternative_endings` list
produce ids `1, 2, 3`. -/
theorem branch_id_is_count_plus_one (now desc : String) (conds : List String)
    (ae : Option (List Branch)) (t1 t2 t3 d1 d2 d3 : String)
    (k1 k2 k3 : List String) :
    (add_alternative_ending_branch now desc conds ae).map Branch.id
      = (ae.getD []).map Branch.id ++ [(ae.getD []).length + 1]
    ∧ (add_alternative_ending_branch t3 d3 k3
        (some (add_alternative_ending_branch t2 d2 k2
          (some (add_alternative_ending_branch t1 d1 k1 none))))).map Branch.id
      = [1, 2, 3] := by
  constructor
  · simp [add_alternative_ending_branch]
  · rfl

/-- C5 counterexample: with two `[WORLD_UPDATE]` blocks in the response,
the clean-text step (`re.sub` with no count) removes *both* occurrences,
not only the first — only-first-removal would have produced
`"ab[WORLD_UPDATE]y[/WORLD_UPDATE]c"`. -/
theorem clean_removes_all_blocks_counterexample :
    cleanResponse "a[WORLD_UPDATE]x[/WORLD_UPDATE]b[WORLD_UPDATE]y[/WORLD_UPDATE]c"
      = "abc"
    ∧ "abc" ≠ "ab[WORLD_UPDATE]y[/WORLD_UPDATE]c" := by
  constructor
  · decide
  · decide

/-- C5 amended: with two blocks present, only the *first* interior is
handed to the JSON decoder (first-match semantics of `re.search`), while
the clean-text step removes *every* block occurrence (`re.sub`
semantics). -/
theorem first_block_honored_all_blocks_removed
    (parse : String → Option Json) (s : String)
    (a r1 m1 r2 c r3 m2 d : List Char)
    (h1 : splitFirst openTag s.toList = some (a, r1))
    (h2 : splitFirst closeTag r1 = some (m1, r2))
    (h3 : splitFirst openTag r2 = some (c, r3))
    (h4 : splitFirst closeTag r3 = some (m2, d))
    (h5 : splitFirst openTag d = none) :
    extract_world_updates parse s
      = (match parse (String.mk (pyStrip m1)) with
         | none => none
         | some j => if j = Json.null then none else some j)
    ∧ cleanResponse s = String.mk (pyStrip (a ++ c ++ d)) := by
  have hb1 : findUpdateBlock s.toList = some (a, m1, r2) := by
    unfold findUpdateBlock
    rw [h1]
    dsimp only
    rw [h2]
  have hb2 : findUpdateBlock r2 = some (c, m2, d) := by
    unfold findUpdateBlock
    rw [h3]
    dsimp only
    rw [h4]
  have hb3 : findUpdateBlock d = none := findUpdateBlock_none_of_no_open h5
  constructor
  · unfold extract_world_updates
    rw [hb1]
  · unfold cleanResponse
    rw [removeBlocks_step hb1, removeBlocks_step hb2, removeBlocks_no_block hb3,
      ← List.append_assoc]

/-- Witness for C5: the two-block response, decoded by `parseEcho`. -/
theorem first_block_honored_all_blocks_removed_witness :
    extract_world_updates parseEcho
        "a[WORLD_UPDATE]x[/WORLD_UPDATE]b[WORLD_UPDATE]y[/WORLD_UPDATE]c"
      = (match parseEcho (String.mk (pyStrip "x".toList)) with
         | none => none
         | some j => if j = Json.null then none else some j)
    ∧ cleanResponse "a[WORLD_UPDATE]x[/WORLD_UPDATE]b[WORLD_UPDATE]y[/WORLD_UPDATE]c"
      = String.mk (pyStrip ("a".toList ++ "b".toList ++ "c".toList)) :=
  first_block_honored_all_blocks_removed parseEcho
    "a[WORLD_UPDATE]x[/WORLD_UPDATE]b[WORLD_UPDATE]y[/WORLD_UPDATE]c"
    "a".toList "x[/WORLD_UPDATE]b[WORLD_UPDATE]y[/WORLD_UPDATE]c".toList
    "x".toList "b[WORLD_UPDATE]y[/WORLD_UPDATE]c".toList
    "b".toList "y[/WORLD_UPDATE]c".toList "y".toList "c".toList
    (by decide) (by decide) (by decide) (by decide) (by decide)

/-- C6 counterexample: if the character *already holds* the item,
`item_acquired` is a no-op and the following `item_lost` removes the
pre-existing entry, so the pair does not restore the original `items`
(`charX` holds a `wand`; after the pair it holds none). -/
theorem acquire_then_lose_present_item_counterexample :
    applyUpdates (some acquireWandX) dwX = .ok (dwX, true)
    ∧ applyUpdates (some loseWandX) dwX = .ok (dwXNoWand, true)
    ∧ dwXNoWand ≠ dwX := by
  refine ⟨rfl, rfl, by decide⟩

/-- C6 amended: `item_acquired` followed by `item_lost` for the same
character and item restores the character list, *provided* the item was
absent from the character's (present) `items` list beforehand. -/
theorem acquire_then_lose_roundtrip (chars : List Character) (nm item : Json)
    (h : ∀ c ∈ chars, c.name = nm →
      c.items.isSome = true ∧ (c.items.getD []).contains item = false) :
    updateFirst (fun c => c.name == nm) (applyItemLost item)
      (updateFirst (fun c => c.name == nm) (applyItemAcquired item) chars) = chars := by
  rw [@updateFirst_comp Character (fun c => c.name == nm) (applyItemLost item)
    (applyItemAcquired item) chars (fun x hx => hx)]
  apply updateFirst_id
  intro c hc hpc
  obtain ⟨hs, hnc⟩ := h c hc (eq_of_beq hpc)
  cases hci : c.items with
  | none => rw [hci] at hs; simp at hs
  | some l =>
    rw [hci] at hnc
    simp only [Option.getD_some] at hnc
    have hxl : item ∉ l := by
      intro hm
      have ht : l.contains item = true := List.elem_iff.mpr hm
      rw [ht] at hnc
      exact absurd hnc (by decide)
    have hga : applyItemAcquired item c = { c with items := some (l ++ [item]) } := by
      simp only [applyItemAcquired]
      rw [hci]
      simp only [Option.getD_some]
      rw [if_neg (by rw [hnc]; exact Bool.false_ne_true)]
    rw [hga]
    simp only [applyItemLost]
    have hcont : (l ++ [item]).contains item = true :=
      List.elem_iff.mpr (by simp)
    rw [if_pos hcont]
    have her : (l ++ [item]).erase item = l := by
      rw [List.erase_append_right _ hxl]
      simp [List.erase_cons_head]
    rw [her, ← hci]

/-- Witness for C6: acquiring then losing a `wand` on a character holding
none restores the list. -/
theorem acquire_then_lose_roundtrip_witness :
    updateFirst (fun c => c.name == Json.str "X") (applyItemLost (.str "wand"))
      (updateFirst (fun c => c.name == Json.str "X")
        (applyItemAcquired (.str "wand")) [charXNoWand]) = [charXNoWand] :=
  acquire_then_lose_roundtrip [charXNoWand] (.str "X") (.str "wand") (by decide)

end LlamaHack
